import Mathlib

/-!
Verification of the apollo-service pagination / enrichment-cache / cost-tracking
subsystem, shallowly embedded from the TypeScript source
(`src/routes/search.ts` with the `/search/next` cursor logic, and the match
routes with `findCachedMatch`).

Conventions of the embedding:
* machine integers are `Nat` (pages, totals, ids never go negative in the source);
* JSON filter objects are the inductive `Json` below; the source compares
  stored and supplied filters with `JSON.stringify(a) !== JSON.stringify(b)`,
  which on well-formed values coincides with key-order-sensitive deep equality,
  embedded as `jsonEq`;
* the spec's notion of "structural equality irrespective of key order" is
  embedded separately as `structEq` (canonical key ordering, then compare);
* timestamps are `Nat`; the `new Date()` twelve-months-ago bound is the
  parameter `cutoff`, the insertion time is the parameter `now`;
* database rows are Lean structures, tables are lists; `INSERT` appends,
  `UPDATE ... WHERE id = x` maps over the list;
* the runs-service collaborators (`createRun` / `addCosts` / `updateRun`) are
  modelled by success flags in `Collab`: a `false` flag makes the corresponding
  awaited call throw, which the route's catch-all turns into a 500 response;
* every observable side effect is recorded in an ordered `Event` trace.
-/

namespace Apollo

/-- JSON values, with objects as ordered association lists (the order in which
`JSON.stringify` would serialize the keys). -/
inductive Json where
  | str (s : String)
  | num (n : Int)
  | bool (b : Bool)
  | null
  | arr (elems : List Json)
  | obj (fields : List (String × Json))

mutual

/-- Key-order-sensitive deep equality of JSON values: this is what
`JSON.stringify(a) !== JSON.stringify(b)` decides in the source
(`src/unnamed/part_007`, the `/search/next` params comparison). -/
def jsonEq : Json → Json → Bool
  | .str a, .str b => a == b
  | .num a, .num b => a == b
  | .bool a, .bool b => a == b
  | .null, .null => true
  | .arr xs, .arr ys => jsonEqList xs ys
  | .obj fs, .obj gs => jsonEqFields fs gs
  | _, _ => false

def jsonEqList : List Json → List Json → Bool
  | [], [] => true
  | x :: xs, y :: ys => jsonEq x y && jsonEqList xs ys
  | _, _ => false

def jsonEqFields : List (String × Json) → List (String × Json) → Bool
  | [], [] => true
  | (k, v) :: fs, (k2, v2) :: gs => k == k2 && jsonEq v v2 && jsonEqFields fs gs
  | _, _ => false

end

/-- Insert a field into a key-sorted field list (stable, by key). -/
def insertField (kv : String × Json) : List (String × Json) → List (String × Json)
  | [] => [kv]
  | kv2 :: rest =>
    if kv2.1 < kv.1 then kv2 :: insertField kv rest else kv :: kv2 :: rest

/-- Sort an object's fields by key (insertion sort, stable). -/
def sortFields : List (String × Json) → List (String × Json)
  | [] => []
  | kv :: rest => insertField kv (sortFields rest)

mutual

/-- Canonical form of a JSON value: object keys recursively sorted.
Used only to state the spec's notion of structural equality. -/
def canon : Json → Json
  | .str s => .str s
  | .num n => .num n
  | .bool b => .bool b
  | .null => .null
  | .arr xs => .arr (canonList xs)
  | .obj fs => .obj (sortFields (canonFields fs))

def canonList : List Json → List Json
  | [] => []
  | x :: xs => canon x :: canonList xs

def canonFields : List (String × Json) → List (String × Json)
  | [] => []
  | (k, v) :: fs => (k, canon v) :: canonFields fs

end

/-- The spec's "structural equality": deep value equality of two filter
objects irrespective of key order (spec glossary). Defined from the spec's
words, deliberately distinct from `jsonEq`, to compare against the code. -/
def structEq (a b : Json) : Bool := jsonEq (canon a) (canon b)

/-- An Apollo person as far as this subsystem inspects it: the identity
fields the routes branch on or copy into enrichment rows. The many remaining
payload fields of `ApolloPerson` never influence control flow. -/
structure Person where
  id : Option String
  firstName : Option String
  lastName : Option String
  email : Option String
  emailStatus : Option String
  organizationDomain : Option String
deriving DecidableEq

/-- A row of `apollo_people_enrichments` restricted to the columns this
subsystem reads back (cache keys, email, freshness, run linkage). -/
structure Enrichment where
  id : Nat
  orgId : String
  runId : String
  searchId : Option Nat
  apolloPersonId : Option String
  firstName : Option String
  lastName : Option String
  organizationDomain : Option String
  email : Option String
  emailStatus : Option String
  enrichmentRunId : Option Nat
  createdAt : Nat
deriving DecidableEq

/-- A row of `apollo_search_cursors` (one per `(orgId, campaignId)`). -/
structure Cursor where
  id : Nat
  orgId : String
  campaignId : String
  appId : String
  brandId : String
  searchParams : Json
  currentPage : Nat
  totalEntries : Nat
  exhausted : Bool

/-- Upstream `mixed_people/search` response: `people` plus the total, which
the routes read as `result.total_entries ?? result.pagination?.total_entries ?? 0`. -/
structure SearchResult where
  people : List Person
  totalEntries? : Option Nat
  paginationTotal? : Option Nat

/-- Success flags for the runs-service collaborator calls. A `false` flag
makes the corresponding awaited call throw; the route's catch-all then
answers 500. -/
structure Collab where
  createRunOk : Bool
  addCostsOk : Bool
  updateRunOk : Bool

/-- The all-successful collaborator environment. -/
def collabOK : Collab := ⟨true, true, true⟩

/-- Observable side effects of one request, in program order. -/
inductive Event where
  | upstreamSearch (page : Nat)
  | upstreamEnrich (personId : String)
  | upstreamMatch (firstName lastName domain : String)
  | upstreamBulkMatch (misses : Nat)
  | cursorWrite (cursorId : Nat)
  | enrichInsert (enrichId : Nat) (runLink : Option Nat)
  | enrichLink (enrichId : Nat) (runId : Nat)
  | searchAudit
  | runCreate (taskName : String)
  | costPost (costName : String) (quantity : Nat)
  | runComplete
deriving DecidableEq

/-- The cost lines posted in a trace, in order. -/
def costsOf (evs : List Event) : List (String × Nat) :=
  evs.filterMap fun e =>
    match e with
    | .costPost n q => some (n, q)
    | _ => none

/-- Whether a trace contains any upstream Apollo API call. -/
def callsUpstream (evs : List Event) : Bool :=
  evs.any fun e =>
    match e with
    | .upstreamSearch _ => true
    | .upstreamEnrich _ => true
    | .upstreamMatch _ _ _ => true
    | .upstreamBulkMatch _ => true
    | _ => false

/-- Whether an event is an upstream bulk-match call. -/
def isBulkCallEv (e : Event) : Bool :=
  match e with
  | .upstreamBulkMatch _ => true
  | _ => false

/-- `SELECT ... WHERE org_id = x AND campaign_id = y LIMIT 1` on the cursor
table (the unique index makes at most one row match). -/
def findCursor (db : List Cursor) (orgId campaignId : String) : Option Cursor :=
  db.find? fun c => c.orgId == orgId && c.campaignId == campaignId

/-- `UPDATE apollo_search_cursors SET ... WHERE id = cid`. -/
def applyCursorWrite (cid : Nat) (g : Cursor → Cursor) (db : List Cursor) : List Cursor :=
  db.map fun c => if c.id == cid then g c else c

/-- `UPDATE apollo_people_enrichments SET ... WHERE id = eid`. -/
def applyEnrichWrite (eid : Nat) (g : Enrichment → Enrichment) (db : List Enrichment) :
    List Enrichment :=
  db.map fun r => if r.id == eid then g r else r

/-- `ORDER BY created_at DESC LIMIT 1` over the rows satisfying `p`:
the matching row with maximal `createdAt` (earlier row wins a tie). -/
def newestWhere (p : Enrichment → Bool) : List Enrichment → Option Enrichment
  | [] => none
  | r :: rest =>
    let tail := newestWhere p rest
    if p r then
      match tail with
      | none => some r
      | some b => if r.createdAt < b.createdAt then some b else some r
    else tail

/-- The `/enrich` cache condition: same `apolloPersonId`, non-null email,
`created_at > twelveMonthsAgo`. Note: no `orgId` condition appears in the
source query. -/
def enrichCachePred (pid : String) (cutoff : Nat) (r : Enrichment) : Bool :=
  r.apolloPersonId == some pid && r.email.isSome && decide (cutoff < r.createdAt)

/-- The `/enrich` cache query: newest fresh row with email for this person id. -/
def enrichCacheLookup (db : List Enrichment) (pid : String) (cutoff : Nat) :
    Option Enrichment :=
  newestWhere (enrichCachePred pid cutoff) db

/-- ASCII lowercasing of one character, as SQL `LOWER` does for the
ASCII names and domains these keys hold. -/
def lowerChar (c : Char) : Char :=
  if 65 ≤ c.toNat ∧ c.toNat ≤ 90 then Char.ofNat (c.toNat + 32) else c

/-- `LOWER(s)`: lowercase every character. -/
def lowerStr (s : String) : String := ⟨s.data.map lowerChar⟩

/-- Case-insensitive name/domain key of `findCachedMatch`
(`LOWER(col) = LOWER(param)`; a SQL NULL column never matches). -/
def matchKeyPred (fn ln dom : String) (r : Enrichment) : Bool :=
  (match r.firstName with
   | some s => lowerStr s == lowerStr fn
   | none => false) &&
  (match r.lastName with
   | some s => lowerStr s == lowerStr ln
   | none => false) &&
  (match r.organizationDomain with
   | some s => lowerStr s == lowerStr dom
   | none => false)

/-- Full `findCachedMatch` row condition: key match, non-null email,
`created_at > twelveMonthsAgo`. No `orgId` condition in the source. -/
def matchCachePred (fn ln dom : String) (cutoff : Nat) (r : Enrichment) : Bool :=
  matchKeyPred fn ln dom r && r.email.isSome && decide (cutoff < r.createdAt)

/-- `findCachedMatch` from the match route: newest fresh row with email
matching the case-insensitive (firstName, lastName, organizationDomain) key. -/
def findCachedMatch (db : List Enrichment) (fn ln dom : String) (cutoff : Nat) :
    Option Enrichment :=
  newestWhere (matchCachePred fn ln dom cutoff) db

/-- Modelled from the spec: `src/lib/transform.ts` is not in the snapshot
(only its unit tests and callers are). Per the spec's data model and the
tests, it maps an Apollo person's snake_case identity fields onto the
enrichment row's columns; the fields this subsystem reads back are carried
unchanged. -/
def toEnrichmentRow (eid : Nat) (orgId runId : String) (searchId : Option Nat)
    (runLink : Option Nat) (now : Nat) (p : Person) : Enrichment :=
  { id := eid
    orgId := orgId
    runId := runId
    searchId := searchId
    apolloPersonId := p.id
    firstName := p.firstName
    lastName := p.lastName
    organizationDomain := p.organizationDomain
    email := p.email
    emailStatus := p.emailStatus
    enrichmentRunId := runLink
    createdAt := now }

/-- A person in a route response: either a cached row passed through
`transformCachedEnrichment(pid, row)` or a fresh upstream person passed
through `transformApolloPerson`. Both transforms are injective renamings,
so the embedding keeps their arguments. -/
inductive PersonOut where
  | fromCache (pid : String) (row : Enrichment)
  | fromApollo (p : Person)
deriving DecidableEq

/-- Validated body of `POST /search/next` (`SearchNextRequestSchema`). -/
structure SearchNextReq where
  campaignId : String
  brandId : String
  appId : String
  searchParams : Option Json
  runId : String

/-- Response of `POST /search/next`. -/
inductive NextResp where
  | ok (people : List Person) (done : Bool) (totalEntries : Nat)
  | badRequest (msg : String)
  | serverError
deriving DecidableEq

/-- The cursor state resolved by the first half of `/search/next`:
which filters and page to fetch, whether the cursor was already exhausted,
the cursor row to advance afterwards, and the pre-call `totalEntries`
(`existingCursor?.totalEntries ?? 0`) used by the exhausted early return. -/
structure Resolution where
  params : Json
  currentPage : Nat
  isExhausted : Bool
  cursorId : Option Nat
  lastTotal : Nat

/-- Reset a cursor row in place to the new filters at page 1
(the `// Params changed — reset cursor` update of the source). -/
def resetCursor (p : Json) (c : Cursor) : Cursor :=
  { c with searchParams := p, currentPage := 1, totalEntries := 0, exhausted := false }

/-- Cursor resolution of `POST /search/next` (source lines 252-317):
create a cursor when filters are supplied and none exists; reset it in place
when the supplied filters stringify differently from the stored ones; reuse
its position when they stringify equal; with no filters, require an existing
cursor or answer the domain-specific 400. Returns the resolution and the
cursor table after any insert/reset. -/
def resolveCursor (orgId : String) (req : SearchNextReq) (db : List Cursor)
    (freshCursorId : Nat) : Except String (Resolution × List Cursor) :=
  let existing := findCursor db orgId req.campaignId
  match req.searchParams with
  | some p =>
    match existing with
    | none =>
      let newCursor : Cursor :=
        { id := freshCursorId, orgId := orgId, campaignId := req.campaignId
          appId := req.appId, brandId := req.brandId, searchParams := p
          currentPage := 1, totalEntries := 0, exhausted := false }
      .ok (⟨p, 1, false, some freshCursorId, 0⟩, db ++ [newCursor])
    | some c =>
      if jsonEq c.searchParams p then
        .ok (⟨c.searchParams, c.currentPage, c.exhausted, some c.id, c.totalEntries⟩, db)
      else
        .ok (⟨p, 1, false, some c.id, c.totalEntries⟩,
             applyCursorWrite c.id (resetCursor p) db)
  | none =>
    match existing with
    | none =>
      .error "No search cursor found for this campaign. Provide searchParams to start a new search."
    | some c =>
      .ok (⟨c.searchParams, c.currentPage, c.exhausted, some c.id, c.totalEntries⟩, db)

/-- `Math.ceil(a / b)` on naturals. -/
def ceilDiv (a b : Nat) : Nat := (a + b - 1) / b

/-- The total the routes read from an upstream search response:
`result.total_entries ?? result.pagination?.total_entries ?? 0`. -/
def SearchResult.total (res : SearchResult) : Nat :=
  res.totalEntries?.getD (res.paginationTotal?.getD 0)

/-- The doneness decision of `/search/next` at a current page:
`people.length === 0 || nextPage > Math.ceil(totalEntries / 25) || nextPage > 500`
with `nextPage = currentPage + 1`. -/
def doneAfter (res : SearchResult) (currentPage : Nat) : Bool :=
  res.people.length == 0 || decide (ceilDiv res.total 25 < currentPage + 1) ||
    decide (500 < currentPage + 1)

/-- The cursor advance `/search/next` persists after a fetch at `currentPage`:
`currentPage = nextPage, totalEntries = new total, exhausted = done`. -/
def advanceCursor (res : SearchResult) (currentPage : Nat) (c : Cursor) : Cursor :=
  { c with currentPage := currentPage + 1, totalEntries := res.total,
           exhausted := doneAfter res currentPage }

/-- Second half of `POST /search/next` (source lines 319-390): exhausted
early return, else one upstream fetch at the resolved page, the cursor
advance write, then run creation, audit insert, the search cost line, and
run completion — a collaborator failure anywhere in that tail yields 500
with the cursor advance already persisted. -/
def fetchAndAdvance (r : Resolution) (db : List Cursor)
    (upstream : Json → Nat → SearchResult) (collab : Collab) :
    NextResp × List Cursor × List Event :=
  if r.isExhausted then
    (.ok [] true r.lastTotal, db, [])
  else
    let result := upstream r.params r.currentPage
    let people := result.people
    let done := doneAfter result r.currentPage
    let db2 :=
      match r.cursorId with
      | some cid => applyCursorWrite cid (advanceCursor result r.currentPage) db
      | none => db
    let evs0 :=
      Event.upstreamSearch r.currentPage ::
        (match r.cursorId with
         | some cid => [Event.cursorWrite cid]
         | none => [])
    if !collab.createRunOk then (.serverError, db2, evs0)
    else
      let evs1 := evs0 ++ [Event.runCreate "people-search-next", Event.searchAudit]
      if !collab.addCostsOk then (.serverError, db2, evs1)
      else
        let evs2 := evs1 ++ [Event.costPost "apollo-search-credit" 1]
        if !collab.updateRunOk then (.serverError, db2, evs2)
        else (.ok people done result.total, db2, evs2 ++ [Event.runComplete])

/-- `POST /search/next`, composed. -/
def searchNext (orgId : String) (req : SearchNextReq) (db : List Cursor)
    (freshCursorId : Nat) (upstream : Json → Nat → SearchResult) (collab : Collab) :
    NextResp × List Cursor × List Event :=
  match resolveCursor orgId req db freshCursorId with
  | .error msg => (.badRequest msg, db, [])
  | .ok (r, db1) => fetchAndAdvance r db1 upstream collab

/-- Iterate `searchNext` calls, threading only the cursor table. -/
def iterSearchNext (orgId : String) (req : SearchNextReq) (freshCursorId : Nat)
    (upstream : Json → Nat → SearchResult) (collab : Collab) :
    Nat → List Cursor → List Cursor
  | 0, db => db
  | n + 1, db =>
    iterSearchNext orgId req freshCursorId upstream collab n
      (searchNext orgId req db freshCursorId upstream collab).2.1

/-- Validated body of `POST /enrich` (`EnrichRequestSchema`). -/
structure EnrichReq where
  apolloPersonId : String
  runId : String
  appId : String
  brandId : String
  campaignId : String

/-- Response of `POST /enrich`. -/
inductive EnrichResp where
  | ok (enrichmentId : Option Nat) (person : Option PersonOut)
  | serverError
deriving DecidableEq

/-- `POST /enrich` (source lines 157-233): cache by person id, else one
upstream enrich call; when a person is returned, insert the row, create a
child run, link the run id onto the row, post one enrichment cost line
(unconditionally — the source has no email check here), complete the run. -/
def enrich (orgId : String) (req : EnrichReq) (db : List Enrichment)
    (cutoff now : Nat) (freshEnrichId freshRunId : Nat)
    (upstream : String → Option Person) (collab : Collab) :
    EnrichResp × List Enrichment × List Event :=
  match enrichCacheLookup db req.apolloPersonId cutoff with
  | some cached =>
    (.ok none (some (.fromCache req.apolloPersonId cached)), db, [])
  | none =>
    let person? := upstream req.apolloPersonId
    let evs0 := [Event.upstreamEnrich req.apolloPersonId]
    match person? with
    | none => (.ok none none, db, evs0)
    | some person =>
      let row := toEnrichmentRow freshEnrichId orgId req.runId none none now person
      let db1 := db ++ [row]
      let evs1 := evs0 ++ [Event.enrichInsert freshEnrichId none]
      if !collab.createRunOk then (.serverError, db1, evs1)
      else
        let evs2 := evs1 ++ [Event.runCreate "enrichment"]
        let db2 := applyEnrichWrite freshEnrichId
          (fun r => { r with enrichmentRunId := some freshRunId }) db1
        let evs3 := evs2 ++ [Event.enrichLink freshEnrichId freshRunId]
        if !collab.addCostsOk then (.serverError, db2, evs3)
        else
          let evs4 := evs3 ++ [Event.costPost "apollo-enrichment-credit" 1]
          if !collab.updateRunOk then (.serverError, db2, evs4)
          else
            (.ok (some freshEnrichId) (some (.fromApollo person)), db2,
             evs4 ++ [Event.runComplete])

/-- Validated body of `POST /match` (`MatchRequestSchema`). -/
structure MatchReq where
  firstName : String
  lastName : String
  organizationDomain : String
  runId : String
  appId : String
  brandId : String
  campaignId : String

/-- Response of `POST /match`. -/
inductive MatchResp where
  | ok (enrichmentId : Option Nat) (person : Option PersonOut) (cached : Bool)
  | serverError
deriving DecidableEq

/-- The `cached` flag of a `/match` response, when it answered 200. -/
def MatchResp.cachedFlag : MatchResp → Option Bool
  | .ok _ _ c => some c
  | .serverError => none

/-- `POST /match` (part_008 lines 47-123): `findCachedMatch`, on a hit a run
is still created and completed but no upstream call is made and no cost line
is posted; on a miss one upstream match call, a run, an insert already
carrying the run link, and a match cost line only when the person has an
email. -/
def matchOne (orgId : String) (req : MatchReq) (db : List Enrichment)
    (cutoff now : Nat) (freshEnrichId freshRunId : Nat)
    (upstream : String → String → String → Option Person) (collab : Collab) :
    MatchResp × List Enrichment × List Event :=
  match findCachedMatch db req.firstName req.lastName req.organizationDomain cutoff with
  | some cached =>
    if !collab.createRunOk then (.serverError, db, [])
    else if !collab.updateRunOk then (.serverError, db, [Event.runCreate "person-match"])
    else
      (.ok none (some (.fromCache (cached.apolloPersonId.getD "") cached)) true, db,
       [Event.runCreate "person-match", Event.runComplete])
  | none =>
    let person? := upstream req.firstName req.lastName req.organizationDomain
    let evs0 := [Event.upstreamMatch req.firstName req.lastName req.organizationDomain]
    if !collab.createRunOk then (.serverError, db, evs0)
    else
      let evs1 := evs0 ++ [Event.runCreate "person-match"]
      match person? with
      | some person =>
        let row := toEnrichmentRow freshEnrichId orgId req.runId none
          (some freshRunId) now person
        let db1 := db ++ [row]
        let evs2 := evs1 ++ [Event.enrichInsert freshEnrichId (some freshRunId)]
        if person.email.isSome then
          if !collab.addCostsOk then (.serverError, db1, evs2)
          else
            let evs3 := evs2 ++ [Event.costPost "apollo-person-match-credit" 1]
            if !collab.updateRunOk then (.serverError, db1, evs3)
            else
              (.ok (some freshEnrichId) (some (.fromApollo person)) false, db1,
               evs3 ++ [Event.runComplete])
        else
          if !collab.updateRunOk then (.serverError, db1, evs2)
          else
            (.ok (some freshEnrichId) (some (.fromApollo person)) false, db1,
             evs2 ++ [Event.runComplete])
      | none =>
        if !collab.updateRunOk then (.serverError, db, evs1)
        else (.ok none none false, db, evs1 ++ [Event.runComplete])

/-- One item of `POST /match/bulk` (`MatchBulkItemSchema`). -/
structure MatchItem where
  firstName : String
  lastName : String
  organizationDomain : String
deriving DecidableEq

/-- Validated body of `POST /match/bulk` (`MatchBulkRequestSchema` caps
`items` at 10). -/
structure BulkReq where
  items : List MatchItem
  runId : String
  appId : String
  brandId : String
  campaignId : String

/-- One element of the bulk response's `results` array. -/
structure BulkItemResult where
  enrichmentId : Option Nat
  person : Option PersonOut
  cached : Bool
deriving DecidableEq

/-- Response of `POST /match/bulk`. -/
inductive BulkResp where
  | ok (results : List BulkItemResult)
  | serverError
deriving DecidableEq

/-- Request-scoped context threaded through the bulk assembly loop. -/
structure BulkCtx where
  orgId : String
  runId : String
  batchRunId : Nat
  now : Nat

/-- The `/match/bulk` assembly loop (part_008 lines 183-223): walk the items
paired with their cache results; a hit contributes its cached row; a miss
consumes `apolloResults[apolloResultIdx++] ?? null`, inserting a row (already
linked to the batch run) and counting one credit when the person has an
email. Returns (results, inserted rows, credits to charge). -/
def assemble (ctx : BulkCtx) :
    List (MatchItem × Option Enrichment) → List (Option Person) → Nat → Nat →
    List BulkItemResult × List Enrichment × Nat
  | [], _, _, _ => ([], [], 0)
  | (_, some cached) :: rest, ms, idx, nid =>
    let tail := assemble ctx rest ms idx nid
    (⟨none, some (.fromCache (cached.apolloPersonId.getD "") cached), true⟩ :: tail.1,
     tail.2.1, tail.2.2)
  | (_, none) :: rest, ms, idx, nid =>
    match ms[idx]?.getD none with
    | some person =>
      let row := toEnrichmentRow nid ctx.orgId ctx.runId none
        (some ctx.batchRunId) ctx.now person
      let tail := assemble ctx rest ms (idx + 1) (nid + 1)
      (⟨some nid, some (.fromApollo person), false⟩ :: tail.1,
       row :: tail.2.1,
       (if person.email.isSome then 1 else 0) + tail.2.2)
    | none =>
      let tail := assemble ctx rest ms (idx + 1) nid
      (⟨none, none, false⟩ :: tail.1, tail.2.1, tail.2.2)

/-- The items paired with their independent cache-lookup results
(`Promise.all` over `findCachedMatch`, against the pre-request table). -/
def bulkPairs (db : List Enrichment) (cutoff : Nat) (items : List MatchItem) :
    List (MatchItem × Option Enrichment) :=
  items.zip (items.map fun it =>
    findCachedMatch db it.firstName it.lastName it.organizationDomain cutoff)

/-- The cache-missing items, in input order. -/
def bulkMissItems (db : List Enrichment) (cutoff : Nat) (items : List MatchItem) :
    List MatchItem :=
  ((bulkPairs db cutoff items).filter fun pr => pr.2.isNone).map Prod.fst

/-- The single upstream bulk-match response: requested only when at least
one item missed the cache. -/
def bulkApolloResults (db : List Enrichment) (cutoff : Nat) (items : List MatchItem)
    (bulkUpstream : List MatchItem → List (Option Person)) : List (Option Person) :=
  if (bulkMissItems db cutoff items).length > 0 then
    bulkUpstream (bulkMissItems db cutoff items)
  else []

/-- `POST /match/bulk` (part_008 lines 129-236): one batch run up front,
independent cache lookups against the pre-request table, a single upstream
bulk call for the misses only, positional reassembly, one aggregated cost
line when any charged item exists, run completion. -/
def matchBulk (orgId : String) (req : BulkReq) (db : List Enrichment)
    (cutoff now : Nat) (freshRunId freshEnrichBase : Nat)
    (bulkUpstream : List MatchItem → List (Option Person)) (collab : Collab) :
    BulkResp × List Enrichment × List Event :=
  if !collab.createRunOk then (.serverError, db, [])
  else
    let pairs := bulkPairs db cutoff req.items
    let missItems := bulkMissItems db cutoff req.items
    let apolloResults := bulkApolloResults db cutoff req.items bulkUpstream
    let ctx : BulkCtx := ⟨orgId, req.runId, freshRunId, now⟩
    let asm := assemble ctx pairs apolloResults 0 freshEnrichBase
    let results := asm.1
    let db1 := db ++ asm.2.1
    let evs0 :=
      Event.runCreate "person-match-bulk" ::
        ((if missItems.length > 0 then [Event.upstreamBulkMatch missItems.length] else []) ++
          asm.2.1.map fun r => Event.enrichInsert r.id (some freshRunId))
    if asm.2.2 > 0 then
      if !collab.addCostsOk then (.serverError, db1, evs0)
      else
        let evs1 := evs0 ++ [Event.costPost "apollo-person-match-credit" asm.2.2]
        if !collab.updateRunOk then (.serverError, db1, evs1)
        else (.ok results, db1, evs1 ++ [Event.runComplete])
    else
      if !collab.updateRunOk then (.serverError, db1, evs0)
      else (.ok results, db1, evs0 ++ [Event.runComplete])

/-- Validated body of `POST /search` (`SearchRequestSchema`): run scoping
fields plus the filter object with its optional page / perPage. -/
structure SearchReq where
  runId : String
  appId : String
  brandId : String
  campaignId : String
  page? : Option Nat
  perPage? : Option Nat
  filters : Json

/-- Response of `POST /search` (pagination block elided: it repeats
`page`, `perPage`, `totalEntries` and their ceiling quotient). -/
inductive SearchResp where
  | ok (searchId : Nat) (peopleCount : Nat) (totalEntries : Nat) (people : List Person)
  | serverError
deriving DecidableEq

/-- The email cache `Map` built by `/search`: later rows overwrite earlier
ones, so a lookup returns the last matching row's email and status. -/
def lastEmailFor (rows : List Enrichment) (pid : String) :
    Option (String × Option String) :=
  rows.foldl
    (fun acc r =>
      if r.apolloPersonId == some pid then some (r.email.getD "", r.emailStatus) else acc)
    none

/-- `POST /search` (part_007 lines 17-152): create the child run, one
upstream search, audit insert, one enrichment insert per returned person
(no run link, no per-person cost), exactly one search cost line, run
completion, then the cached-email fill for returned people without email. -/
def search (orgId : String) (req : SearchReq) (db : List Enrichment)
    (cutoff now : Nat) (freshSearchId freshEnrichBase _freshRunId : Nat)
    (upstream : Json → Nat → Nat → SearchResult) (collab : Collab) :
    SearchResp × List Enrichment × List Event :=
  let page := req.page?.getD 1
  let perPage := req.perPage?.getD 25
  if !collab.createRunOk then (.serverError, db, [])
  else
    let result := upstream req.filters page perPage
    let totalEntries := result.totalEntries?.getD (result.paginationTotal?.getD 0)
    let inserts := (List.range result.people.length).zip result.people |>.map
      fun pr => toEnrichmentRow (freshEnrichBase + pr.1) orgId req.runId
        (some freshSearchId) none now pr.2
    let db1 := db ++ inserts
    let evs1 :=
      Event.runCreate "people-search" :: Event.upstreamSearch page :: Event.searchAudit ::
        inserts.map fun r => Event.enrichInsert r.id none
    if !collab.addCostsOk then (.serverError, db1, evs1)
    else
      let evs2 := evs1 ++ [Event.costPost "apollo-search-credit" 1]
      if !collab.updateRunOk then (.serverError, db1, evs2)
      else
        let idsNoEmail := result.people.filterMap fun p =>
          if p.email.isNone then p.id else none
        let cachedRows := db1.filter fun r =>
          (match r.apolloPersonId with
           | some pid => idsNoEmail.contains pid
           | none => false) &&
          r.email.isSome && decide (cutoff < r.createdAt)
        let outPeople := result.people.map fun p =>
          if p.email.isNone && p.id.isSome then
            match lastEmailFor cachedRows (p.id.getD "") with
            | some hit => { p with email := some hit.1, emailStatus := hit.2 }
            | none => p
          else p
        (.ok freshSearchId result.people.length totalEntries outPeople, db1,
         evs2 ++ [Event.runComplete])

/-! Concrete fixtures used to evaluate the handlers on closed inputs. -/

/-- A small filter object, `JSON.stringify` order a-then-b. -/
def filtersA : Json := .obj [("a", .num 1), ("b", .num 2)]

/-- The same filter object with its keys in the opposite order: structurally
equal to `filtersA` but serializing differently. -/
def filtersAreordered : Json := .obj [("b", .num 2), ("a", .num 1)]

/-- An upstream person that has no email. -/
def personNoEmail : Person :=
  ⟨some "pid-1", some "Jane", some "Roe", none, none, some "acme.com"⟩

/-- An upstream person that has an email. -/
def personWithEmail : Person :=
  ⟨some "pid-2", some "John", some "Doe", some "john@acme.com", some "verified", some "acme.com"⟩

/-- A cursor sitting at page 2 of a 75-entry result set. -/
def cursorPage2 : Cursor := ⟨7, "org1", "camp1", "app", "brand", filtersA, 2, 75, false⟩

/-- A cursor sitting at page 5. -/
def cursorPage5 : Cursor := ⟨3, "org1", "camp1", "app", "brand", filtersA, 5, 100, false⟩

/-- An exhausted cursor with 200 known entries. -/
def cursorDone : Cursor := ⟨4, "org1", "camp1", "app", "brand", filtersA, 10, 200, true⟩

/-- A fetch-next request without filters. -/
def reqNoParams : SearchNextReq := ⟨"camp1", "brand", "app", none, "run1"⟩

/-- A fetch-next request resending the stored filters verbatim. -/
def reqSameParams : SearchNextReq := ⟨"camp1", "brand", "app", some filtersA, "run1"⟩

/-- A fetch-next request resending the stored filters with reordered keys. -/
def reqReordered : SearchNextReq := ⟨"camp1", "brand", "app", some filtersAreordered, "run1"⟩

/-- `cursorPage5` after the in-place reset to the reordered filters. -/
def cursorPage5AfterReset : Cursor := resetCursor filtersAreordered cursorPage5

/-- Upstream answering every page with 25 people out of 75. -/
def upstream25of75 : Json → Nat → SearchResult :=
  fun _ _ => ⟨List.replicate 25 personWithEmail, some 75, none⟩

/-- Upstream answering with an empty page. -/
def upstreamNone : Json → Nat → SearchResult := fun _ _ => ⟨[], some 0, none⟩

/-- A direct-enrich request for `pid-1`. -/
def enrichReq1 : EnrichReq := ⟨"pid-1", "run1", "app", "brand", "camp1"⟩

/-- A `/search` request with default page and page size. -/
def searchReq1 : SearchReq := ⟨"run1", "app", "brand", "camp1", none, none, filtersA⟩

/-- A single-match request for Jane Roe at acme.com. -/
def matchReq1 : MatchReq := ⟨"Jane", "Roe", "acme.com", "run1", "app", "brand", "camp1"⟩

/-- A cached enrichment row for Jane Roe with an email, created at time 50
by a different organization. -/
def cachedJane : Enrichment :=
  { id := 21, orgId := "orgOther", runId := "runX", searchId := none
    apolloPersonId := some "pid-1", firstName := some "jane", lastName := some "roe"
    organizationDomain := some "ACME.com", email := some "jane@acme.com"
    emailStatus := some "verified", enrichmentRunId := none, createdAt := 50 }

/-- A stale (older than the cutoff) row for Jane Roe with an email. -/
def staleJane : Enrichment := { cachedJane with id := 22, createdAt := 5 }

/-- A fresh row for Jane Roe without an email. -/
def noEmailJane : Enrichment :=
  { cachedJane with id := 23, email := none, emailStatus := none, createdAt := 60 }

/-- A bulk request with a hit (Jane) between two misses. -/
def bulkReq1 : BulkReq :=
  { items := [⟨"Ann", "Lee", "x.io"⟩, ⟨"Jane", "Roe", "acme.com"⟩, ⟨"Bob", "Kay", "y.io"⟩]
    runId := "run1", appId := "app", brandId := "brand", campaignId := "camp1" }

/-- Bulk upstream returning a person for the first miss and nothing for the
second. -/
def bulkUpstream1 : List MatchItem → List (Option Person) :=
  fun _ => [some personWithEmail, none]

/-- Number of cache misses among the first `i` items of the paired list. -/
def countMissBefore (pairs : List (MatchItem × Option Enrichment)) (i : Nat) : Nat :=
  ((pairs.take i).filter fun pr => pr.2.isNone).length

/-! Helper lemmas shared by the claim theorems. -/

theorem newestWhere_isSome {p : Enrichment → Bool} {db : List Enrichment} {r : Enrichment}
    (hin : r ∈ db) (hp : p r = true) : ∃ b, newestWhere p db = some b := by
  induction db with
  | nil => simp at hin
  | cons a rest ih =>
    rcases List.mem_cons.mp hin with h | h
    · subst h
      cases h2 : newestWhere p rest with
      | none => exact ⟨r, by simp [newestWhere, h2, hp]⟩
      | some b =>
        by_cases hlt : r.createdAt < b.createdAt
        · exact ⟨b, by simp [newestWhere, h2, hp, hlt]⟩
        · exact ⟨r, by simp [newestWhere, h2, hp, hlt]⟩
    · rcases ih h with ⟨b, hb⟩
      cases hpa : p a
      · exact ⟨b, by simp [newestWhere, hb, hpa]⟩
      · by_cases hlt : a.createdAt < b.createdAt
        · exact ⟨b, by simp [newestWhere, hb, hpa, hlt]⟩
        · exact ⟨a, by simp [newestWhere, hb, hpa, hlt]⟩

theorem newestWhere_spec {p : Enrichment → Bool} {db : List Enrichment} {r : Enrichment}
    (h : newestWhere p db = some r) :
    r ∈ db ∧ p r = true ∧ ∀ s ∈ db, p s = true → s.createdAt ≤ r.createdAt := by
  induction db generalizing r with
  | nil => simp [newestWhere] at h
  | cons a rest ih =>
    cases hp : p a with
    | false =>
      simp only [newestWhere, hp, Bool.false_eq_true, if_false] at h
      rcases ih h with ⟨hbmem, hbp, hbmax⟩
      refine ⟨List.mem_cons_of_mem a hbmem, hbp, ?_⟩
      intro s hs hps
      rcases List.mem_cons.mp hs with hs | hs
      · subst hs; rw [hps] at hp; cases hp
      · exact hbmax s hs hps
    | true =>
      cases htail : newestWhere p rest with
      | none =>
        simp only [newestWhere, htail, hp, if_true] at h
        injection h with h
        subst h
        refine ⟨List.mem_cons_self a rest, hp, ?_⟩
        intro s hs hps
        rcases List.mem_cons.mp hs with hs | hs
        · subst hs; exact le_rfl
        · rcases newestWhere_isSome hs hps with ⟨b, hb⟩
          rw [htail] at hb; cases hb
      | some b =>
        rcases ih htail with ⟨hbmem, hbp, hbmax⟩
        by_cases hlt : a.createdAt < b.createdAt
        · simp only [newestWhere, htail, hp, if_true, if_pos hlt] at h
          injection h with h
          subst h
          refine ⟨List.mem_cons_of_mem a hbmem, hbp, ?_⟩
          intro s hs hps
          rcases List.mem_cons.mp hs with hs | hs
          · subst hs; exact le_of_lt hlt
          · exact hbmax s hs hps
        · simp only [newestWhere, htail, hp, if_true, if_neg hlt] at h
          injection h with h
          subst h
          refine ⟨List.mem_cons_self a rest, hp, ?_⟩
          intro s hs hps
          rcases List.mem_cons.mp hs with hs | hs
          · subst hs; exact le_rfl
          · exact le_trans (hbmax s hs hps) (Nat.le_of_not_lt hlt)

theorem newestWhere_none {p : Enrichment → Bool} {db : List Enrichment}
    (h : ∀ s ∈ db, p s = false) : newestWhere p db = none := by
  induction db with
  | nil => rfl
  | cons a rest ih =>
    have ha := h a (List.mem_cons_self a rest)
    have htail := ih fun s hs => h s (List.mem_cons_of_mem a hs)
    simp [newestWhere, ha, htail]

theorem findCursor_applyCursorWrite {g : Cursor → Cursor} {cid : Nat}
    (hg : ∀ c, (g c).orgId = c.orgId ∧ (g c).campaignId = c.campaignId)
    (db : List Cursor) (orgId campaignId : String) :
    findCursor (applyCursorWrite cid g db) orgId campaignId =
      (findCursor db orgId campaignId).map fun c => if c.id == cid then g c else c := by
  unfold findCursor applyCursorWrite
  rw [List.find?_map]
  have hpred : ((fun c : Cursor => c.orgId == orgId && c.campaignId == campaignId) ∘
      fun c => if c.id == cid then g c else c) =
      fun c : Cursor => c.orgId == orgId && c.campaignId == campaignId := by
    funext c
    by_cases hid : c.id == cid
    · simp [Function.comp, hid, (hg c).1, (hg c).2]
    · simp [Function.comp, hid]
  rw [hpred]

theorem map_id_of_fresh {g : Enrichment → Enrichment} {eid : Nat}
    {db : List Enrichment} (h : ∀ r ∈ db, r.id ≠ eid) :
    (db.map fun r => if r.id == eid then g r else r) = db := by
  induction db with
  | nil => rfl
  | cons a rest ih =>
    have ha : (a.id == eid) = false := by
      simpa using h a (List.mem_cons_self a rest)
    have htail := ih fun r hr => h r (List.mem_cons_of_mem a hr)
    rw [List.map_cons, htail, if_neg (by simp [ha])]

theorem applyEnrichWrite_append_fresh {g : Enrichment → Enrichment} {eid : Nat}
    {db : List Enrichment} (h : ∀ r ∈ db, r.id ≠ eid) (row : Enrichment)
    (hrow : row.id = eid) :
    applyEnrichWrite eid g (db ++ [row]) = db ++ [g row] := by
  unfold applyEnrichWrite
  rw [List.map_append, map_id_of_fresh h]
  simp [hrow]

theorem costsOf_append (a b : List Event) : costsOf (a ++ b) = costsOf a ++ costsOf b := by
  simp [costsOf, List.filterMap_append]

theorem costsOf_enrichInserts (l : List Enrichment) (f : Option Nat) :
    costsOf (l.map fun r => Event.enrichInsert r.id f) = [] := by
  induction l with
  | nil => rfl
  | cons a rest ih => simp [costsOf]

theorem filter_isBulkCallEv_enrichInserts (l : List Enrichment) (x : Option Nat) :
    (l.map fun r => Event.enrichInsert r.id x).filter isBulkCallEv = [] := by
  induction l with
  | nil => rfl
  | cons a rest ih => simp [isBulkCallEv]

theorem zip_selfMap_getElem? {α β : Type} (l : List α) (f : α → β) (i : Nat) :
    (l.zip (l.map f))[i]? = l[i]?.map fun a => (a, f a) := by
  induction l generalizing i with
  | nil => simp
  | cons a rest ih =>
    cases i with
    | zero => simp
    | succ n => simpa using ih n

theorem assemble_length (ctx : BulkCtx) (pairs : List (MatchItem × Option Enrichment))
    (ms : List (Option Person)) (idx nid : Nat) :
    (assemble ctx pairs ms idx nid).1.length = pairs.length := by
  induction pairs generalizing idx nid with
  | nil => rfl
  | cons pr rest ih =>
    rcases pr with ⟨it, cr⟩
    cases cr with
    | some cached => simp [assemble, ih]
    | none =>
      cases h : ms[idx]?.getD none with
      | some person => simp [assemble, h, ih]
      | none => simp [assemble, h, ih]

theorem assemble_getElem?_hit (ctx : BulkCtx)
    (pairs : List (MatchItem × Option Enrichment)) (ms : List (Option Person)) :
    ∀ (idx nid i : Nat) (it : MatchItem) (cached : Enrichment),
    pairs[i]? = some (it, some cached) →
    (assemble ctx pairs ms idx nid).1[i]? =
      some ⟨none, some (.fromCache (cached.apolloPersonId.getD "") cached), true⟩ := by
  induction pairs with
  | nil => intro idx nid i it cached h; simp at h
  | cons pr rest ih =>
    intro idx nid i it cached h
    rcases pr with ⟨it2, cr⟩
    cases i with
    | zero =>
      simp at h
      rcases h with ⟨h1, h2⟩
      subst h1
      subst h2
      simp [assemble]
    | succ n =>
      simp at h
      cases cr with
      | some c => simpa [assemble] using ih idx nid n it cached h
      | none =>
        cases h2 : ms[idx]?.getD none with
        | some person => simpa [assemble, h2] using ih (idx + 1) (nid + 1) n it cached h
        | none => simpa [assemble, h2] using ih (idx + 1) nid n it cached h

theorem assemble_getElem?_miss (ctx : BulkCtx)
    (pairs : List (MatchItem × Option Enrichment)) (ms : List (Option Person)) :
    ∀ (idx nid i : Nat) (it : MatchItem),
    pairs[i]? = some (it, none) →
    ∃ res, (assemble ctx pairs ms idx nid).1[i]? = some res ∧ res.cached = false ∧
      res.person =
        (ms[idx + countMissBefore pairs i]?.getD none).map PersonOut.fromApollo := by
  induction pairs with
  | nil => intro idx nid i it h; simp at h
  | cons pr rest ih =>
    intro idx nid i it h
    rcases pr with ⟨it2, cr⟩
    cases i with
    | zero =>
      simp at h
      rcases h with ⟨h1, h2⟩
      subst h1
      subst h2
      cases h2 : ms[idx]?.getD none with
      | some person =>
        exact ⟨⟨some nid, some (.fromApollo person), false⟩,
          by simp [assemble, h2], by rfl,
          by simp [countMissBefore, h2]⟩
      | none =>
        exact ⟨⟨none, none, false⟩,
          by simp [assemble, h2], by rfl,
          by simp [countMissBefore, h2]⟩
    | succ n =>
      simp at h
      cases cr with
      | some c =>
        rcases ih idx nid n it h with ⟨res, h1, h2, h3⟩
        refine ⟨res, by simpa [assemble] using h1, h2, ?_⟩
        have heq : countMissBefore ((it2, some c) :: rest) (n + 1) =
            countMissBefore rest n := by
          simp [countMissBefore, List.take_succ_cons, List.filter_cons]
        rw [heq]
        exact h3
      | none =>
        cases hm : ms[idx]?.getD none with
        | some person =>
          rcases ih (idx + 1) (nid + 1) n it h with ⟨res, h1, h2, h3⟩
          refine ⟨res, by simpa [assemble, hm] using h1, h2, ?_⟩
          have harith : idx + 1 + countMissBefore rest n =
              idx + countMissBefore ((it2, none) :: rest) (n + 1) := by
            simp [countMissBefore, List.take_succ_cons, List.filter_cons]
            omega
          rw [← harith]
          exact h3
        | none =>
          rcases ih (idx + 1) nid n it h with ⟨res, h1, h2, h3⟩
          refine ⟨res, by simpa [assemble, hm] using h1, h2, ?_⟩
          have harith : idx + 1 + countMissBefore rest n =
              idx + countMissBefore ((it2, none) :: rest) (n + 1) := by
            simp [countMissBefore, List.take_succ_cons, List.filter_cons]
            omega
          rw [← harith]
          exact h3

/-! Claim theorems. -/

/-- C6: on `POST /search/next` with no stored cursor for the
(organization, campaign) pair and no `searchParams`, the response is the
domain-specific no-cursor 400, the cursor table is untouched, and the trace
is empty — in particular zero upstream calls and zero cost postings. -/
theorem C6_no_cursor_no_params_is_client_error
    (orgId : String) (req : SearchNextReq) (db : List Cursor) (fid : Nat)
    (upstream : Json → Nat → SearchResult) (collab : Collab)
    (hfind : findCursor db orgId req.campaignId = none)
    (hparams : req.searchParams = none) :
    searchNext orgId req db fid upstream collab =
      (.badRequest "No search cursor found for this campaign. Provide searchParams to start a new search.",
       db, []) ∧
    callsUpstream (searchNext orgId req db fid upstream collab).2.2 = false ∧
    costsOf (searchNext orgId req db fid upstream collab).2.2 = [] := by
  have h : searchNext orgId req db fid upstream collab =
      (.badRequest "No search cursor found for this campaign. Provide searchParams to start a new search.",
       db, []) := by
    simp [searchNext, resolveCursor, hfind, hparams]
  exact ⟨h, by simp [h, callsUpstream], by simp [h, costsOf]⟩

theorem C6_witness :
    findCursor [] "org1" reqNoParams.campaignId = none ∧
    reqNoParams.searchParams = none ∧
    searchNext "org1" reqNoParams [] 0 upstreamNone collabOK =
      (.badRequest "No search cursor found for this campaign. Provide searchParams to start a new search.",
       [], []) :=
  ⟨rfl, rfl,
   (C6_no_cursor_no_params_is_client_error "org1" reqNoParams [] 0 upstreamNone collabOK
     rfl rfl).1⟩

/-- C3: once a cursor is exhausted and no filter change is supplied (either
no `searchParams`, or ones that stringify equal to the stored filters),
`/search/next` answers `people = []`, `done = true` with the stored
`totalEntries`, leaves the cursor table unchanged, performs no upstream call
(the trace is empty), and every later call does the same. -/
theorem C3_exhausted_is_idempotent
    (orgId : String) (req : SearchNextReq) (db : List Cursor) (fid : Nat)
    (upstream : Json → Nat → SearchResult) (collab : Collab) (c : Cursor)
    (hfind : findCursor db orgId req.campaignId = some c)
    (hex : c.exhausted = true)
    (hparams : req.searchParams = none ∨
      ∃ p, req.searchParams = some p ∧ jsonEq c.searchParams p = true) :
    searchNext orgId req db fid upstream collab = (.ok [] true c.totalEntries, db, []) ∧
    ∀ n, iterSearchNext orgId req fid upstream collab n db = db := by
  have hres : resolveCursor orgId req db fid =
      .ok (⟨c.searchParams, c.currentPage, c.exhausted, some c.id, c.totalEntries⟩, db) := by
    rcases hparams with hp | ⟨p, hp, hjson⟩
    · simp [resolveCursor, hfind, hp]
    · simp [resolveCursor, hfind, hp, hjson]
  have h1 : searchNext orgId req db fid upstream collab =
      (.ok [] true c.totalEntries, db, []) := by
    simp [searchNext, hres, fetchAndAdvance, hex]
  refine ⟨h1, ?_⟩
  intro n
  induction n with
  | zero => rfl
  | succ m ih =>
    show iterSearchNext orgId req fid upstream collab m
      (searchNext orgId req db fid upstream collab).2.1 = db
    rw [h1]
    exact ih

theorem C3_witness :
    findCursor [cursorDone] "org1" reqNoParams.campaignId = some cursorDone ∧
    cursorDone.exhausted = true ∧
    searchNext "org1" reqNoParams [cursorDone] 0 upstream25of75 collabOK =
      (.ok [] true 200, [cursorDone], []) ∧
    iterSearchNext "org1" reqNoParams 0 upstream25of75 collabOK 3 [cursorDone] =
      [cursorDone] :=
  ⟨rfl, rfl,
   (C3_exhausted_is_idempotent "org1" reqNoParams [cursorDone] 0 upstream25of75 collabOK
     cursorDone rfl rfl (Or.inl rfl)).1,
   (C3_exhausted_is_idempotent "org1" reqNoParams [cursorDone] 0 upstream25of75 collabOK
     cursorDone rfl rfl (Or.inl rfl)).2 3⟩

/-- C2: whenever `/search/next` reaches the upstream search (cursor resolved,
not exhausted) and the collaborators succeed, the response carries the
fetched people with `done` computed as: no people, or `currentPage + 1`
exceeding `ceil(total / 25)`, or exceeding 500; and the cursor row is
persisted with `currentPage + 1`, the new total, and `exhausted = done`.
Exactly one search cost line of quantity 1 appears in the trace. -/
theorem C2_done_and_advance
    (orgId : String) (req : SearchNextReq) (db db1 : List Cursor) (fid : Nat)
    (upstream : Json → Nat → SearchResult) (r : Resolution) (cid : Nat)
    (hres : resolveCursor orgId req db fid = .ok (r, db1))
    (hex : r.isExhausted = false)
    (hcid : r.cursorId = some cid) :
    searchNext orgId req db fid upstream collabOK =
      (.ok (upstream r.params r.currentPage).people
           (doneAfter (upstream r.params r.currentPage) r.currentPage)
           (upstream r.params r.currentPage).total,
       applyCursorWrite cid (advanceCursor (upstream r.params r.currentPage) r.currentPage) db1,
       [Event.upstreamSearch r.currentPage, Event.cursorWrite cid,
        Event.runCreate "people-search-next", Event.searchAudit,
        Event.costPost "apollo-search-credit" 1, Event.runComplete]) := by
  simp [searchNext, hres, fetchAndAdvance, hex, hcid, collabOK,
    SearchResult.total, doneAfter]

theorem C2_witness :
    resolveCursor "org1" reqNoParams [cursorPage2] 0 =
      .ok (⟨filtersA, 2, false, some 7, 75⟩, [cursorPage2]) ∧
    searchNext "org1" reqNoParams [cursorPage2] 0 upstream25of75 collabOK =
      (.ok (List.replicate 25 personWithEmail) false 75,
       [{ cursorPage2 with currentPage := 3, totalEntries := 75, exhausted := false }],
       [Event.upstreamSearch 2, Event.cursorWrite 7,
        Event.runCreate "people-search-next", Event.searchAudit,
        Event.costPost "apollo-search-credit" 1, Event.runComplete]) :=
  ⟨rfl,
   (C2_done_and_advance "org1" reqNoParams [cursorPage2] [cursorPage2] 0 upstream25of75
     ⟨filtersA, 2, false, some 7, 75⟩ 7 rfl rfl rfl).trans (by rfl)⟩

/-- C1 (amended): the `/search/next` filter comparison is equality of the
JSON serializations (key-order-sensitive), not structural equality. When
the supplied filters stringify identically to the stored ones the cursor is
resumed from its stored `currentPage` / `exhausted` state without any
write; when they stringify differently — including a mere key reordering —
the cursor is reset in place to `currentPage = 1`, `totalEntries = 0`,
`exhausted = false` with the new filters stored. -/
theorem C1_serialization_equality_resolution
    (orgId : String) (req : SearchNextReq) (db : List Cursor) (fid : Nat)
    (c : Cursor) (p : Json)
    (hfind : findCursor db orgId req.campaignId = some c)
    (hparams : req.searchParams = some p) :
    (jsonEq c.searchParams p = true →
      resolveCursor orgId req db fid =
        .ok (⟨c.searchParams, c.currentPage, c.exhausted, some c.id, c.totalEntries⟩, db)) ∧
    (jsonEq c.searchParams p = false →
      resolveCursor orgId req db fid =
        .ok (⟨p, 1, false, some c.id, c.totalEntries⟩,
             applyCursorWrite c.id (resetCursor p) db)) := by
  constructor <;> intro hjson <;> simp [resolveCursor, hfind, hparams, hjson]

theorem C1_witness :
    jsonEq cursorPage5.searchParams filtersA = true ∧
    resolveCursor "org1" reqSameParams [cursorPage5] 9 =
      .ok (⟨filtersA, 5, false, some 3, 100⟩, [cursorPage5]) :=
  ⟨rfl,
   ((C1_serialization_equality_resolution "org1" reqSameParams [cursorPage5] 9
     cursorPage5 filtersA rfl rfl).1 rfl).trans (by rfl)⟩

/-- C1 counterexample: the claim's resumption condition fails on the code.
`filtersAreordered` is structurally equal (deep value equality irrespective
of key order) to the stored `filtersA`, yet `/search/next` does not resume
from the stored page 5: it resets the cursor in place to page 1 and fetches
page 1 upstream, because `JSON.stringify` of the two objects differs. -/
theorem C1_counterexample :
    structEq filtersAreordered filtersA = true ∧
    resolveCursor "org1" reqReordered [cursorPage5] 9 =
      .ok (⟨filtersAreordered, 1, false, some 3, 100⟩, [cursorPage5AfterReset]) ∧
    cursorPage5AfterReset.currentPage = 1 ∧ cursorPage5.currentPage = 5 ∧
    (searchNext "org1" reqReordered [cursorPage5] 9 upstream25of75 collabOK).2.2 =
      [Event.upstreamSearch 1, Event.cursorWrite 3, Event.runCreate "people-search-next",
       Event.searchAudit, Event.costPost "apollo-search-credit" 1, Event.runComplete] := by
  refine ⟨?_, by rfl, by rfl, by rfl, by rfl⟩
  simp [structEq, canon, canonFields, canonList, sortFields, insertField,
    jsonEq, jsonEqFields, jsonEqList, filtersA, filtersAreordered,
    show (['a'] : List Char) < ['b'] from by decide]

/-- C9: `/search/next` persists the cursor advance before any billing call.
If run creation, cost posting, or run completion fails after the upstream
fetch, the request answers 500 without the people, but the advanced cursor
row stands; a following call with the same filters never re-fetches the
undelivered page — when the cursor is not exhausted it fetches the next
page instead. -/
theorem C9_advance_persists_before_billing
    (orgId : String) (req : SearchNextReq) (db : List Cursor) (fid fid2 : Nat)
    (upstream upstream2 : Json → Nat → SearchResult) (collab : Collab) (c : Cursor)
    (hfind : findCursor db orgId req.campaignId = some c)
    (hex : c.exhausted = false)
    (hparams : req.searchParams = none)
    (hfail : collab.createRunOk = false ∨ collab.addCostsOk = false ∨
      collab.updateRunOk = false) :
    (searchNext orgId req db fid upstream collab).1 = .serverError ∧
    (searchNext orgId req db fid upstream collab).2.1 =
      applyCursorWrite c.id
        (advanceCursor (upstream c.searchParams c.currentPage) c.currentPage) db ∧
    findCursor (searchNext orgId req db fid upstream collab).2.1 orgId req.campaignId =
      some (advanceCursor (upstream c.searchParams c.currentPage) c.currentPage c) ∧
    Event.upstreamSearch c.currentPage ∉
      (searchNext orgId req (searchNext orgId req db fid upstream collab).2.1 fid2
        upstream2 collabOK).2.2 ∧
    (doneAfter (upstream c.searchParams c.currentPage) c.currentPage = false →
      Event.upstreamSearch (c.currentPage + 1) ∈
        (searchNext orgId req (searchNext orgId req db fid upstream collab).2.1 fid2
          upstream2 collabOK).2.2) := by
  have hres : resolveCursor orgId req db fid =
      .ok (⟨c.searchParams, c.currentPage, c.exhausted, some c.id, c.totalEntries⟩, db) := by
    simp [resolveCursor, hfind, hparams]
  obtain ⟨cr, ac, ur⟩ := collab
  have h12 : (searchNext orgId req db fid upstream ⟨cr, ac, ur⟩).1 = .serverError ∧
      (searchNext orgId req db fid upstream ⟨cr, ac, ur⟩).2.1 =
        applyCursorWrite c.id
          (advanceCursor (upstream c.searchParams c.currentPage) c.currentPage) db := by
    cases cr <;> cases ac <;> cases ur <;>
      simp_all [searchNext, hres, fetchAndAdvance, hex]
  have hg : ∀ x, ((advanceCursor (upstream c.searchParams c.currentPage) c.currentPage) x).orgId
      = x.orgId ∧
      ((advanceCursor (upstream c.searchParams c.currentPage) c.currentPage) x).campaignId
      = x.campaignId := fun x => ⟨rfl, rfl⟩
  have h3 : findCursor
      (applyCursorWrite c.id
        (advanceCursor (upstream c.searchParams c.currentPage) c.currentPage) db)
      orgId req.campaignId =
      some (advanceCursor (upstream c.searchParams c.currentPage) c.currentPage c) := by
    rw [findCursor_applyCursorWrite hg, hfind]
    simp
  set db2 := (searchNext orgId req db fid upstream ⟨cr, ac, ur⟩).2.1 with hdb2
  have h3' : findCursor db2 orgId req.campaignId =
      some (advanceCursor (upstream c.searchParams c.currentPage) c.currentPage c) := by
    rw [h12.2]
    exact h3
  have hres2 : resolveCursor orgId req db2 fid2 =
      .ok (⟨c.searchParams, c.currentPage + 1,
            doneAfter (upstream c.searchParams c.currentPage) c.currentPage, some c.id,
            (upstream c.searchParams c.currentPage).total⟩, db2) := by
    simp [resolveCursor, h3', hparams, advanceCursor]
  refine ⟨h12.1, h12.2, h3', ?_, ?_⟩
  · cases hdone : doneAfter (upstream c.searchParams c.currentPage) c.currentPage with
    | true =>
      simp [searchNext, hres2, fetchAndAdvance, hdone]
    | false =>
      simp [searchNext, hres2, fetchAndAdvance, hdone, collabOK]
  · intro hdone
    simp [searchNext, hres2, fetchAndAdvance, hdone, collabOK]

theorem C9_witness :
    findCursor [cursorPage2] "org1" reqNoParams.campaignId = some cursorPage2 ∧
    cursorPage2.exhausted = false ∧
    (searchNext "org1" reqNoParams [cursorPage2] 0 upstream25of75 ⟨true, false, true⟩).1 =
      .serverError ∧
    (searchNext "org1" reqNoParams [cursorPage2] 0 upstream25of75 ⟨true, false, true⟩).2.1 =
      [{ cursorPage2 with currentPage := 3, totalEntries := 75, exhausted := false }] ∧
    Event.upstreamSearch 3 ∈
      (searchNext "org1" reqNoParams
        (searchNext "org1" reqNoParams [cursorPage2] 0 upstream25of75 ⟨true, false, true⟩).2.1
        1 upstream25of75 collabOK).2.2 := by
  have h := C9_advance_persists_before_billing "org1" reqNoParams [cursorPage2] 0 1
    upstream25of75 upstream25of75 ⟨true, false, true⟩ cursorPage2 rfl rfl rfl
    (Or.inr (Or.inl rfl))
  exact ⟨rfl, rfl, h.1, h.2.1.trans (by rfl), h.2.2.2.2 (by rfl)⟩

/-- C5: for a direct enrich or match that found a billable person, the
persisted enrichment row carries the child run id before the cost line is
posted (the enrich trace links before `addCosts`; the match insert already
carries the link); when the cost posting fails the request answers 500 but
the persisted row still holds the run-id link — no rollback. -/
theorem C5_link_before_cost
    (orgId : String) (reqE : EnrichReq) (dbE : List Enrichment) (cutoff now : Nat)
    (eid rid : Nat) (upE : String → Option Person) (personE : Person)
    (reqM : MatchReq) (dbM : List Enrichment) (eidM ridM : Nat)
    (upM : String → String → String → Option Person) (personM : Person)
    (hcE : enrichCacheLookup dbE reqE.apolloPersonId cutoff = none)
    (hupE : upE reqE.apolloPersonId = some personE)
    (hfresh : ∀ r ∈ dbE, r.id ≠ eid)
    (hcM : findCachedMatch dbM reqM.firstName reqM.lastName reqM.organizationDomain cutoff
      = none)
    (hupM : upM reqM.firstName reqM.lastName reqM.organizationDomain = some personM)
    (hemail : personM.email.isSome = true) :
    (enrich orgId reqE dbE cutoff now eid rid upE collabOK).2.2 =
      [Event.upstreamEnrich reqE.apolloPersonId, Event.enrichInsert eid none,
       Event.runCreate "enrichment", Event.enrichLink eid rid,
       Event.costPost "apollo-enrichment-credit" 1, Event.runComplete] ∧
    (enrich orgId reqE dbE cutoff now eid rid upE ⟨true, false, true⟩).1 = .serverError ∧
    (enrich orgId reqE dbE cutoff now eid rid upE ⟨true, false, true⟩).2.1 =
      dbE ++ [toEnrichmentRow eid orgId reqE.runId none (some rid) now personE] ∧
    (matchOne orgId reqM dbM cutoff now eidM ridM upM collabOK).2.2 =
      [Event.upstreamMatch reqM.firstName reqM.lastName reqM.organizationDomain,
       Event.runCreate "person-match", Event.enrichInsert eidM (some ridM),
       Event.costPost "apollo-person-match-credit" 1, Event.runComplete] ∧
    (matchOne orgId reqM dbM cutoff now eidM ridM upM ⟨true, false, true⟩).1 = .serverError ∧
    (matchOne orgId reqM dbM cutoff now eidM ridM upM ⟨true, false, true⟩).2.1 =
      dbM ++ [toEnrichmentRow eidM orgId reqM.runId none (some ridM) now personM] := by
  have hdb : (enrich orgId reqE dbE cutoff now eid rid upE ⟨true, false, true⟩).2.1 =
      dbE ++ [toEnrichmentRow eid orgId reqE.runId none (some rid) now personE] := by
    have h1 : (enrich orgId reqE dbE cutoff now eid rid upE ⟨true, false, true⟩).2.1 =
        applyEnrichWrite eid (fun r => { r with enrichmentRunId := some rid })
          (dbE ++ [toEnrichmentRow eid orgId reqE.runId none none now personE]) := by
      simp [enrich, hcE, hupE]
    rw [h1, applyEnrichWrite_append_fresh hfresh _ rfl]
    simp [toEnrichmentRow]
  refine ⟨?_, ?_, hdb, ?_, ?_, ?_⟩
  · simp [enrich, hcE, hupE, collabOK]
  · simp [enrich, hcE, hupE]
  · simp [matchOne, hcM, hupM, collabOK, hemail]
  · simp [matchOne, hcM, hupM, hemail]
  · simp [matchOne, hcM, hupM, hemail]

theorem C5_witness :
    enrichCacheLookup [] enrichReq1.apolloPersonId 10 = none ∧
    (enrich "org1" enrichReq1 [] 10 100 31 41 (fun _ => some personWithEmail)
      ⟨true, false, true⟩).1 = .serverError ∧
    (enrich "org1" enrichReq1 [] 10 100 31 41 (fun _ => some personWithEmail)
      ⟨true, false, true⟩).2.1 =
      [toEnrichmentRow 31 "org1" "run1" none (some 41) 100 personWithEmail] ∧
    (matchOne "org1" matchReq1 [] 10 100 32 42 (fun _ _ _ => some personWithEmail)
      ⟨true, false, true⟩).1 = .serverError ∧
    (matchOne "org1" matchReq1 [] 10 100 32 42 (fun _ _ _ => some personWithEmail)
      ⟨true, false, true⟩).2.1 =
      [toEnrichmentRow 32 "org1" "run1" none (some 42) 100 personWithEmail] := by
  have h := C5_link_before_cost "org1" enrichReq1 [] 10 100 31 41
    (fun _ => some personWithEmail) personWithEmail matchReq1 [] 32 42
    (fun _ _ _ => some personWithEmail) personWithEmail rfl rfl
    (fun r hr => absurd hr (List.not_mem_nil r)) rfl rfl rfl
  exact ⟨rfl, h.2.1, h.2.2.1.trans (by rfl), h.2.2.2.2.1, h.2.2.2.2.2.trans (by rfl)⟩

/-- C7: `/match` with a fresh cached row (case-insensitive name/domain key,
non-null email, created after the cutoff) answers that row — the newest such
row — with `cached = true`, makes no upstream call and posts no cost line;
when every key-matching row is stale or email-less, the request proceeds
upstream with `cached = false`. -/
theorem C7_match_cache_semantics
    (orgId : String) (req : MatchReq) (db : List Enrichment) (cutoff now : Nat)
    (eid rid : Nat) (up : String → String → String → Option Person) :
    (∀ r, findCachedMatch db req.firstName req.lastName req.organizationDomain cutoff
        = some r →
      matchOne orgId req db cutoff now eid rid up collabOK =
        (.ok none (some (.fromCache (r.apolloPersonId.getD "") r)) true, db,
         [Event.runCreate "person-match", Event.runComplete]) ∧
      callsUpstream (matchOne orgId req db cutoff now eid rid up collabOK).2.2 = false ∧
      costsOf (matchOne orgId req db cutoff now eid rid up collabOK).2.2 = [] ∧
      matchCachePred req.firstName req.lastName req.organizationDomain cutoff r = true ∧
      ∀ s ∈ db,
        matchCachePred req.firstName req.lastName req.organizationDomain cutoff s = true →
          s.createdAt ≤ r.createdAt) ∧
    ((∀ s ∈ db, matchKeyPred req.firstName req.lastName req.organizationDomain s = true →
        s.email = none ∨ s.createdAt ≤ cutoff) →
      (matchOne orgId req db cutoff now eid rid up collabOK).1.cachedFlag = some false ∧
      Event.upstreamMatch req.firstName req.lastName req.organizationDomain ∈
        (matchOne orgId req db cutoff now eid rid up collabOK).2.2) := by
  constructor
  · intro r hr
    have hresp : matchOne orgId req db cutoff now eid rid up collabOK =
        (.ok none (some (.fromCache (r.apolloPersonId.getD "") r)) true, db,
         [Event.runCreate "person-match", Event.runComplete]) := by
      simp [matchOne, hr, collabOK]
    have hspec : r ∈ db ∧
        matchCachePred req.firstName req.lastName req.organizationDomain cutoff r = true ∧
        ∀ s ∈ db,
          matchCachePred req.firstName req.lastName req.organizationDomain cutoff s = true →
            s.createdAt ≤ r.createdAt :=
      newestWhere_spec hr
    exact ⟨hresp, by simp [hresp, callsUpstream], by simp [hresp, costsOf],
      hspec.2.1, hspec.2.2⟩
  · intro h2
    have hnone : findCachedMatch db req.firstName req.lastName req.organizationDomain cutoff
        = none := by
      apply newestWhere_none
      intro s hs
      unfold matchCachePred
      cases hk : matchKeyPred req.firstName req.lastName req.organizationDomain s with
      | false => simp
      | true =>
        rcases h2 s hs hk with he | hc
        · simp [he]
        · simp [show ¬cutoff < s.createdAt from Nat.not_lt.mpr hc]
    cases hup : up req.firstName req.lastName req.organizationDomain with
    | none => simp [matchOne, hnone, hup, collabOK, MatchResp.cachedFlag]
    | some person =>
      by_cases he : person.email.isSome <;>
        simp [matchOne, hnone, hup, collabOK, MatchResp.cachedFlag, he]

theorem C7_witness :
    findCachedMatch [cachedJane, staleJane, noEmailJane] matchReq1.firstName
      matchReq1.lastName matchReq1.organizationDomain 10 = some cachedJane ∧
    matchOne "org1" matchReq1 [cachedJane, staleJane, noEmailJane] 10 100 31 41
      (fun _ _ _ => some personWithEmail) collabOK =
      (.ok none (some (.fromCache "pid-1" cachedJane)) true,
       [cachedJane, staleJane, noEmailJane],
       [Event.runCreate "person-match", Event.runComplete]) ∧
    (∀ s ∈ [staleJane], matchKeyPred matchReq1.firstName matchReq1.lastName
        matchReq1.organizationDomain s = true → s.email = none ∨ s.createdAt ≤ 10) ∧
    (matchOne "org1" matchReq1 [staleJane] 10 100 31 41
      (fun _ _ _ => some personWithEmail) collabOK).1.cachedFlag = some false := by
  have h := C7_match_cache_semantics "org1" matchReq1 [cachedJane, staleJane, noEmailJane]
    10 100 31 41 (fun _ _ _ => some personWithEmail)
  have h2 := C7_match_cache_semantics "org1" matchReq1 [staleJane] 10 100 31 41
    (fun _ _ _ => some personWithEmail)
  have hstale : ∀ s ∈ [staleJane], matchKeyPred matchReq1.firstName matchReq1.lastName
      matchReq1.organizationDomain s = true → s.email = none ∨ s.createdAt ≤ 10 := by
    intro s hs _
    simp at hs
    subst hs
    right
    decide
  exact ⟨rfl, ((h.1 cachedJane rfl).1).trans (by rfl), hstale, (h2.2 hstale).1⟩

/-- C10: the enrichment cache queries of `/enrich` (by apolloPersonId) and
`/match` (by name triple) carry no orgId condition: two requests identical
except for the authenticated organization produce the same response, and a
fresh row with email persisted by one organization answers, as a cache hit,
a request from a different organization. -/
theorem C10_cache_ignores_org :
    (∀ (orgA orgB : String) (req : EnrichReq) (db : List Enrichment)
       (cutoff now eid rid : Nat) (up : String → Option Person) (collab : Collab),
      (enrich orgA req db cutoff now eid rid up collab).1 =
        (enrich orgB req db cutoff now eid rid up collab).1) ∧
    (∀ (orgA orgB : String) (req : MatchReq) (db : List Enrichment)
       (cutoff now eid rid : Nat) (up : String → String → String → Option Person)
       (collab : Collab),
      (matchOne orgA req db cutoff now eid rid up collab).1 =
        (matchOne orgB req db cutoff now eid rid up collab).1) ∧
    (∀ (orgB : String) (req : MatchReq) (db : List Enrichment)
       (cutoff now eid rid : Nat) (up : String → String → String → Option Person)
       (r : Enrichment), r ∈ db → r.orgId ≠ orgB →
      matchCachePred req.firstName req.lastName req.organizationDomain cutoff r = true →
      (matchOne orgB req db cutoff now eid rid up collabOK).1.cachedFlag = some true) ∧
    (∀ (orgB : String) (req : EnrichReq) (db : List Enrichment)
       (cutoff now eid rid : Nat) (up : String → Option Person)
       (r : Enrichment), r ∈ db → r.orgId ≠ orgB →
      enrichCachePred req.apolloPersonId cutoff r = true →
      ∃ cachedRow, enrichCacheLookup db req.apolloPersonId cutoff = some cachedRow ∧
        (enrich orgB req db cutoff now eid rid up collabOK).1 =
          .ok none (some (.fromCache req.apolloPersonId cachedRow))) := by
  refine ⟨?_, ?_, ?_, ?_⟩
  · intro orgA orgB req db cutoff now eid rid up collab
    obtain ⟨cr, ac, ur⟩ := collab
    cases hc : enrichCacheLookup db req.apolloPersonId cutoff with
    | some cached => simp [enrich, hc]
    | none =>
      cases hup : up req.apolloPersonId with
      | none => simp [enrich, hc, hup]
      | some person =>
        cases cr <;> cases ac <;> cases ur <;> simp [enrich, hc, hup]
  · intro orgA orgB req db cutoff now eid rid up collab
    obtain ⟨cr, ac, ur⟩ := collab
    cases hc : findCachedMatch db req.firstName req.lastName req.organizationDomain
        cutoff with
    | some cached => cases cr <;> cases ur <;> simp [matchOne, hc]
    | none =>
      cases hup : up req.firstName req.lastName req.organizationDomain with
      | none => cases cr <;> cases ur <;> simp [matchOne, hc, hup]
      | some person =>
        by_cases he : person.email.isSome <;>
          cases cr <;> cases ac <;> cases ur <;> simp [matchOne, hc, hup, he]
  · intro orgB req db cutoff now eid rid up r hin hOrg hpred
    rcases newestWhere_isSome hin hpred with ⟨b, hb⟩
    simp [matchOne, findCachedMatch, hb, collabOK, MatchResp.cachedFlag]
  · intro orgB req db cutoff now eid rid up r hin hOrg hpred
    rcases newestWhere_isSome hin hpred with ⟨b, hb⟩
    exact ⟨b, hb, by simp [enrich, enrichCacheLookup, hb]⟩

theorem C10_witness :
    cachedJane.orgId = "orgOther" ∧ ("orgOther" ≠ "org1") ∧
    (matchOne "org1" matchReq1 [cachedJane] 10 100 31 41
      (fun _ _ _ => some personWithEmail) collabOK).1.cachedFlag = some true ∧
    (enrich "orgA" enrichReq1 [staleJane] 10 100 31 41
      (fun _ => some personWithEmail) collabOK).1 =
      (enrich "orgB" enrichReq1 [staleJane] 10 100 31 41
        (fun _ => some personWithEmail) collabOK).1 := by
  have h := C10_cache_ignores_org
  refine ⟨rfl, by decide, ?_, ?_⟩
  · exact h.2.2.1 "org1" matchReq1 [cachedJane] 10 100 31 41
      (fun _ _ _ => some personWithEmail) cachedJane (List.mem_singleton.mpr rfl)
      (by decide) (by decide)
  · exact h.1 "orgA" "orgB" enrichReq1 [staleJane] 10 100 31 41
      (fun _ => some personWithEmail) collabOK

/-- C8: `/match/bulk` on 1 to 10 items answers one result per item in input
order: a cache hit at position i carries its cached row with `cached = true`,
and the j-th miss (in input order) receives the j-th element of the single
upstream bulk-match response; at most one upstream bulk call appears in the
trace. -/
theorem C8_bulk_preserves_order
    (orgId : String) (req : BulkReq) (db : List Enrichment) (cutoff now : Nat)
    (rid base : Nat) (bulkUp : List MatchItem → List (Option Person))
    (_hlen1 : 1 ≤ req.items.length) (_hlen10 : req.items.length ≤ 10) :
    ∃ results,
      (matchBulk orgId req db cutoff now rid base bulkUp collabOK).1 = .ok results ∧
      results.length = req.items.length ∧
      (∀ (i : Nat) (it : MatchItem) (cached : Enrichment), req.items[i]? = some it →
        findCachedMatch db it.firstName it.lastName it.organizationDomain cutoff
          = some cached →
        results[i]? =
          some ⟨none, some (.fromCache (cached.apolloPersonId.getD "") cached), true⟩) ∧
      (∀ (i : Nat) (it : MatchItem), req.items[i]? = some it →
        findCachedMatch db it.firstName it.lastName it.organizationDomain cutoff = none →
        ∃ res, results[i]? = some res ∧ res.cached = false ∧
          res.person =
            ((bulkApolloResults db cutoff req.items bulkUp)[countMissBefore
                (bulkPairs db cutoff req.items) i]?.getD none).map PersonOut.fromApollo) ∧
      ((matchBulk orgId req db cutoff now rid base bulkUp collabOK).2.2.filter
        isBulkCallEv).length ≤ 1 := by
  refine ⟨(assemble ⟨orgId, req.runId, rid, now⟩ (bulkPairs db cutoff req.items)
    (bulkApolloResults db cutoff req.items bulkUp) 0 base).1, ?_, ?_, ?_, ?_, ?_⟩
  · by_cases hcr : (assemble ⟨orgId, req.runId, rid, now⟩ (bulkPairs db cutoff req.items)
        (bulkApolloResults db cutoff req.items bulkUp) 0 base).2.2 > 0 <;>
      simp [matchBulk, collabOK, hcr]
  · rw [assemble_length]
    simp [bulkPairs]
  · intro i it cached hi hc
    have hp : (bulkPairs db cutoff req.items)[i]? = some (it, some cached) := by
      rw [bulkPairs, zip_selfMap_getElem?, hi]
      simp [hc]
    exact assemble_getElem?_hit ⟨orgId, req.runId, rid, now⟩ (bulkPairs db cutoff req.items)
      (bulkApolloResults db cutoff req.items bulkUp) 0 base i it cached hp
  · intro i it hi hc
    have hp : (bulkPairs db cutoff req.items)[i]? = some (it, none) := by
      rw [bulkPairs, zip_selfMap_getElem?, hi]
      simp [hc]
    have h := assemble_getElem?_miss ⟨orgId, req.runId, rid, now⟩
      (bulkPairs db cutoff req.items) (bulkApolloResults db cutoff req.items bulkUp)
      0 base i it hp
    simpa using h
  · by_cases hcr : (assemble ⟨orgId, req.runId, rid, now⟩ (bulkPairs db cutoff req.items)
        (bulkApolloResults db cutoff req.items bulkUp) 0 base).2.2 > 0 <;>
      by_cases hmiss : (bulkMissItems db cutoff req.items).length > 0 <;>
      simp [matchBulk, collabOK, hcr, hmiss, List.filter_append,
        filter_isBulkCallEv_enrichInserts, isBulkCallEv]

theorem C8_witness :
    1 ≤ bulkReq1.items.length ∧ bulkReq1.items.length ≤ 10 ∧
    ∃ results,
      (matchBulk "org1" bulkReq1 [cachedJane] 10 100 41 51 bulkUpstream1 collabOK).1 =
        .ok results ∧
      results.length = 3 ∧
      results[1]? = some ⟨none, some (.fromCache "pid-1" cachedJane), true⟩ ∧
      ∃ res0, results[0]? = some res0 ∧ res0.cached = false ∧
        res0.person = some (.fromApollo personWithEmail) := by
  refine ⟨by decide, by decide, ?_⟩
  rcases C8_bulk_preserves_order "org1" bulkReq1 [cachedJane] 10 100 41 51 bulkUpstream1
    (by decide) (by decide) with ⟨results, hok, hlen, hhit, hmiss, hcalls⟩
  rcases hmiss 0 ⟨"Ann", "Lee", "x.io"⟩ (by rfl) (by rfl) with ⟨res0, hr0, hc0, hp0⟩
  refine ⟨results, hok, hlen, ?_, res0, hr0, hc0, ?_⟩
  · exact hhit 1 ⟨"Jane", "Roe", "acme.com"⟩ cachedJane (by rfl) (by rfl)
  · rw [hp0]
    rfl

/-- C4 counterexample: a `/enrich` cache miss whose upstream person carries
no email still posts the `apollo-enrichment-credit` cost line — the source
posts it whenever a person is returned, with no email check — refuting
"an enrich/match cost line is posted if and only if the resolved person
record carries a non-null email". -/
theorem C4_counterexample :
    personNoEmail.email = none ∧
    costsOf (enrich "org1" enrichReq1 [] 10 100 31 41
      (fun _ => some personNoEmail) collabOK).2.2 =
      [("apollo-enrichment-credit", 1)] :=
  ⟨rfl, rfl⟩

/-- C4 (amended): both search routes post exactly one
`apollo-search-credit` line of quantity 1 regardless of how many people come
back (including zero). `/match` posts its cost line iff the request missed
the cache and the upstream person is non-null with a non-null email.
`/enrich` posts its cost line iff the request missed the cache and the
upstream person is non-null, regardless of that person's email. Cache hits
never post a cost line. -/
theorem C4_cost_rules
    (orgId : String) (reqS : SearchReq) (dbS : List Enrichment) (cutoffS nowS : Nat)
    (sid ebase erun : Nat) (upS : Json → Nat → Nat → SearchResult)
    (reqN : SearchNextReq) (dbN db1 : List Cursor) (fidN : Nat)
    (upN : Json → Nat → SearchResult) (rN : Resolution)
    (reqE : EnrichReq) (dbE : List Enrichment) (cutoff now eid rid : Nat)
    (upE : String → Option Person)
    (reqM : MatchReq) (dbM : List Enrichment) (eidM ridM : Nat)
    (upM : String → String → String → Option Person)
    (hresN : resolveCursor orgId reqN dbN fidN = .ok (rN, db1))
    (hexN : rN.isExhausted = false) :
    costsOf (search orgId reqS dbS cutoffS nowS sid ebase erun upS collabOK).2.2 =
      [("apollo-search-credit", 1)] ∧
    costsOf (searchNext orgId reqN dbN fidN upN collabOK).2.2 =
      [("apollo-search-credit", 1)] ∧
    (∀ cached, enrichCacheLookup dbE reqE.apolloPersonId cutoff = some cached →
      costsOf (enrich orgId reqE dbE cutoff now eid rid upE collabOK).2.2 = []) ∧
    (enrichCacheLookup dbE reqE.apolloPersonId cutoff = none →
      costsOf (enrich orgId reqE dbE cutoff now eid rid upE collabOK).2.2 =
        match upE reqE.apolloPersonId with
        | some _ => [("apollo-enrichment-credit", 1)]
        | none => []) ∧
    (∀ cached,
      findCachedMatch dbM reqM.firstName reqM.lastName reqM.organizationDomain cutoff
        = some cached →
      costsOf (matchOne orgId reqM dbM cutoff now eidM ridM upM collabOK).2.2 = []) ∧
    (findCachedMatch dbM reqM.firstName reqM.lastName reqM.organizationDomain cutoff
        = none →
      costsOf (matchOne orgId reqM dbM cutoff now eidM ridM upM collabOK).2.2 =
        match upM reqM.firstName reqM.lastName reqM.organizationDomain with
        | some person =>
          if person.email.isSome then [("apollo-person-match-credit", 1)] else []
        | none => []) := by
  refine ⟨?_, ?_, ?_, ?_, ?_, ?_⟩
  · simp [search, collabOK, costsOf_append, costsOf_enrichInserts, costsOf]
  · cases hcid : rN.cursorId <;>
      simp [searchNext, hresN, fetchAndAdvance, hexN, hcid, collabOK, costsOf]
  · intro cached h
    simp [enrich, h, costsOf]
  · intro h
    cases hup : upE reqE.apolloPersonId with
    | none => simp [enrich, h, hup, costsOf]
    | some person => simp [enrich, h, hup, collabOK, costsOf]
  · intro cached h
    simp [matchOne, h, collabOK, costsOf]
  · intro h
    cases hup : upM reqM.firstName reqM.lastName reqM.organizationDomain with
    | none => simp [matchOne, h, hup, collabOK, costsOf]
    | some person =>
      by_cases he : person.email.isSome <;>
        simp [matchOne, h, hup, collabOK, costsOf, he]

theorem C4_witness :
    costsOf (search "org1" searchReq1 [] 10 100 61 71 81
      (fun _ _ _ => ⟨[], some 0, none⟩) collabOK).2.2 =
      [("apollo-search-credit", 1)] ∧
    costsOf (searchNext "org1" reqNoParams [cursorPage2] 0 upstream25of75 collabOK).2.2 =
      [("apollo-search-credit", 1)] ∧
    costsOf (matchOne "org1" matchReq1 [] 10 100 31 41
      (fun _ _ _ => some personNoEmail) collabOK).2.2 = [] := by
  have h := C4_cost_rules "org1" searchReq1 [] 10 100 61 71 81
    (fun _ _ _ => ⟨[], some 0, none⟩) reqNoParams [cursorPage2] [cursorPage2] 0
    upstream25of75 ⟨filtersA, 2, false, some 7, 75⟩ enrichReq1 [] 10 100 31 41
    (fun _ => some personNoEmail) matchReq1 [] 31 41
    (fun _ _ _ => some personNoEmail) rfl rfl
  exact ⟨h.1, h.2.1, (h.2.2.2.2.2 rfl).trans (by rfl)⟩

end Apollo
